import Mathlib

/-!
Shallow embedding of `script.py` (GeoNames API).

The Python `GeoInfo` dataclass is constructed via `GeoInfo(*line.strip().split('\t'))`,
so every field holds the raw string from the dataset line (the type annotations in the
dataclass are not enforced by Python).  Numeric conversions happen explicitly at the
use sites (`int(geo_item.geonameid)`, `int(gi.population)`), and `latitude` is compared
as a plain string in `Service.get_diff_info`.

Python `dict` is modelled as an insertion-ordered association list: assigning to an
existing key updates the value in place (keeping its position), assigning a fresh key
appends; `.values()` and `.keys()` iterate in that order; `.get` looks the key up.

Failures that Python signals by raising (wrong field count in `GeoInfo(*fields)`,
unparsable `int(...)`) are modelled with `Option`: `none` means the whole operation
raises.  The time-dependent `pytz` offsets are abstracted as a function
`tzOffset : String → Int` giving each timezone's UTC offset in whole minutes at the
instant of the call.
-/

/-- The 19 dataset columns, all stored as raw strings exactly as Python's
`GeoInfo(*line.strip().split('\t'))` does. -/
structure GeoInfo where
  geonameid : String
  name : String
  asciiname : String
  alternatenames : String
  latitude : String
  longitude : String
  feature_class : String
  feature_code : String
  country_code : String
  cc2 : String
  admin1_code : String
  admin2_code : String
  admin3_code : String
  admin4_code : String
  population : String
  elevation : String
  dem : String
  timezone : String
  modification_date : String
deriving Repr, DecidableEq

/-- Result record of `Service.get_diff_info` (`GeoInfoCompare` in the source). -/
structure GeoInfoCompare where
  north : String
  is_same_time : Bool
  timezone_diff : String
  name_1 : GeoInfo
  name_2 : GeoInfo
deriving Repr, DecidableEq

/-- HTTP-level error outcomes raised by the route handlers. -/
inductive ApiError where
  | badRequest (detail : String)
  | notFound (detail : String)
deriving Repr, DecidableEq

/-- Python `dict.get k`: the value stored at `k`, if present. -/
def dictGet [DecidableEq κ] (d : List (κ × ν)) (k : κ) : Option ν :=
  (d.find? (fun p => decide (p.1 = k))).map (fun p => p.2)

/-- Python `d[k] = v`: update in place if the key exists (keeping its position),
otherwise append at the end. -/
def dictInsert [DecidableEq κ] (d : List (κ × ν)) (k : κ) (v : ν) : List (κ × ν) :=
  if d.any (fun p => decide (p.1 = k)) then
    d.map (fun p => if p.1 = k then (k, v) else p)
  else
    d ++ [(k, v)]

/-- Python `dict.values()`, in insertion order. -/
def dictValues (d : List (κ × ν)) : List ν := d.map (fun p => p.2)

/-- Python `dict.keys()`, in insertion order. -/
def dictKeys (d : List (κ × ν)) : List κ := d.map (fun p => p.1)

/-- `GeoInfo(*line.strip().split('\t'))`: succeeds only when the line has exactly
19 tab-separated fields, otherwise Python raises a `TypeError`. -/
def parseLine (line : String) : Option GeoInfo :=
  let f := line.trim.splitOn "\t"
  if h : f.length = 19 then
    some {
      geonameid := f[0], name := f[1], asciiname := f[2], alternatenames := f[3],
      latitude := f[4], longitude := f[5], feature_class := f[6], feature_code := f[7],
      country_code := f[8], cc2 := f[9], admin1_code := f[10], admin2_code := f[11],
      admin3_code := f[12], admin4_code := f[13], population := f[14],
      elevation := f[15], dem := f[16], timezone := f[17], modification_date := f[18]
    }
  else
    none

/-- One iteration of the `init_db` loop: parse the line, and if its feature class is
"P" insert it keyed by `int(geonameid)`; a parse failure aborts (`none`). -/
def init_db_step (db : List (Int × GeoInfo)) (line : String) :
    Option (List (Int × GeoInfo)) := do
  let gi ← parseLine line
  if gi.feature_class = "P" then do
    let id ← gi.geonameid.toInt?
    pure (dictInsert db id gi)
  else
    pure db

/-- `MemDataBase.init_db`: parse every line, keep only feature class "P", key the
record by `int(geonameid)`.  Any parse failure aborts the whole construction. -/
def init_db (lines : List String) : Option (List (Int × GeoInfo)) :=
  lines.foldlM init_db_step []

/-- The sort key `int(gi.population)`; total function used only where every
population string is known to parse. -/
def popVal (gi : GeoInfo) : Int := (gi.population.toInt?).getD 0

/-- One step of the inner loop of `init_hased_names`:
`hashed_names.update({name: [geo_item] + hashed_names.get(name, [])})`. -/
def addName (hn : List (String × List GeoInfo)) (gi : GeoInfo) (nm : String) :
    List (String × List GeoInfo) :=
  dictInsert hn nm (gi :: (dictGet hn nm).getD [])

/-- The inner loop of `init_hased_names`: prepend `gi` to the list of every name in
`gi.alternatenames.split(',')`. -/
def addRecord (hn : List (String × List GeoInfo)) (gi : GeoInfo) :
    List (String × List GeoInfo) :=
  (gi.alternatenames.splitOn ",").foldl (fun h nm => addName h gi nm) hn

/-- The outer loop of `init_hased_names`, over the (sorted) records. -/
def buildNames (recs : List GeoInfo) : List (String × List GeoInfo) :=
  recs.foldl addRecord []

/-- The ascending stable sort `sorted(db.values(), key=lambda gi: int(gi.population))`. -/
def sortedRecords (db : List (Int × GeoInfo)) : List GeoInfo :=
  (dictValues db).mergeSort (fun a b => decide (popVal a ≤ popVal b))

/-- `MemDataBase.init_hased_names`: sort the records ascending by `int(population)`
(raising, i.e. `none`, if some population does not parse), then run the two loops. -/
def init_hased_names (db : List (Int × GeoInfo)) : Option (List (String × List GeoInfo)) :=
  if (dictValues db).all (fun gi => (gi.population.toInt?).isSome) then
    some (buildNames (sortedRecords db))
  else
    none

/-- The two indices of `MemDataBase`. -/
structure MemDataBase where
  hashed_db : List (Int × GeoInfo)
  hashed_db_names : List (String × List GeoInfo)
deriving Repr, DecidableEq

/-- `MemDataBase.__init__`: build both indices, propagating any load failure. -/
def MemDataBase.make (lines : List String) : Option MemDataBase := do
  let db ← init_db lines
  let hn ← init_hased_names db
  pure ⟨db, hn⟩

/-- Clamp of one Python slice index `i` for a list of length `len`:
negative indices count from the end, everything is clamped into `[0, len]`. -/
def pyIdx (len : Nat) (i : Int) : Nat :=
  if i < 0 then len - i.natAbs else min i.toNat len

/-- Python slice `l[a:b]`. -/
def pySlice (l : List α) (a b : Int) : List α :=
  let s := pyIdx l.length a
  let e := pyIdx l.length b
  (l.drop s).take (e - s)

/-- `MemDataBase.get_by_id`. -/
def MemDataBase.get_by_id (mdb : MemDataBase) (id : Int) : Option GeoInfo :=
  dictGet mdb.hashed_db id

/-- `MemDataBase.get_list`: `list(self.hashed_db.values())[skip:skip+limit]`. -/
def MemDataBase.get_list (mdb : MemDataBase) (skip limit : Int) : List GeoInfo :=
  pySlice (dictValues mdb.hashed_db) skip (skip + limit)

/-- `MemDataBase.get_by_name`. -/
def MemDataBase.get_by_name (mdb : MemDataBase) (nm : String) : Option (List GeoInfo) :=
  dictGet mdb.hashed_db_names nm

/-- `MemDataBase.get_name_help`: names starting with `name_part`, truncated by
the Python slice `[:limit]`. -/
def MemDataBase.get_name_help (mdb : MemDataBase) (name_part : String) (limit : Int) :
    List String :=
  pySlice ((dictKeys mdb.hashed_db_names).filter (fun nm => nm.startsWith name_part)) 0 limit

/-- Zero-padding `f"{x:02}"` for a natural number. -/
def pad2 (n : Nat) : String :=
  if n < 10 then "0" ++ toString n else toString n

/-- `Service.timezone_diff`, with the two UTC offsets (whole minutes) supplied as
integers.  `delta_minutes / 60` is Python float division followed by `int(abs(...))`
(truncation of the absolute value), and `delta_minutes % 60` is Python's
floored modulo, which for a positive divisor is the Euclidean remainder `% ` of `Int`. -/
def Service.timezone_diff (off1 off2 : Int) : Int × String :=
  let delta_minutes := off1 - off2
  let s1 : String := if delta_minutes ≥ 0 then "+" else "-"
  let s2 := s1 ++ pad2 (delta_minutes.natAbs / 60) ++ ":"
  let s3 := s2 ++ pad2 ((delta_minutes % 60).natAbs)
  (delta_minutes, s3)

/-- `Service.get_diff_info`.  `tzOffset` gives each timezone's current UTC offset in
minutes.  The outer `Option` is the Python `IndexError` that `gi_1[0]` would raise on
an empty list (`none` = crash); the inner `Option` is the explicit `None` return for
an unresolved name. -/
def Service.get_diff_info (tzOffset : String → Int) (name_1 name_2 : String)
    (db : MemDataBase) : Option (Option GeoInfoCompare) :=
  match db.get_by_name name_1, db.get_by_name name_2 with
  | some gl1, some gl2 =>
    match gl1[0]?, gl2[0]? with
    | some gi_1, some gi_2 =>
      let td := Service.timezone_diff (tzOffset gi_1.timezone) (tzOffset gi_2.timezone)
      let north := if gi_2.latitude ≤ gi_1.latitude then name_1 else name_2
      some (some ⟨north, td.1 = 0, td.2, gi_1, gi_2⟩)
    | _, _ => none
  | _, _ => some none

/-- Route `GET /info`. -/
def infoRoute (mdb : MemDataBase) (id : Int) : Except ApiError GeoInfo :=
  if id < 0 then
    .error (.badRequest "id must be >= 0")
  else
    match mdb.get_by_id id with
    | none => .error (.notFound "id not found")
    | some res => .ok res

/-- Route `GET /` (`pagination`).  The guard `0 > limit > 1000` is a Python chained
comparison and means `(0 > limit) and (limit > 1000)`. -/
def pagination (mdb : MemDataBase) (page limit : Int) : Except ApiError (List GeoInfo) :=
  if page < 0 ∨ (0 > limit ∧ limit > 1000) then
    .error (.badRequest "page must be >= 0 and 0 < limit <= 1000")
  else
    .ok (mdb.get_list (page * limit) limit)

/-- Route `GET /help` (`help`).  Same chained comparison `0 > limit > 1000`. -/
def helpRoute (mdb : MemDataBase) (name_part : String) (limit : Int) :
    Except ApiError (List String) :=
  if name_part = "" ∨ (0 > limit ∧ limit > 1000) then
    .error (.badRequest "name must contain symbols and 0 < limit <= 1000")
  else
    .ok (mdb.get_name_help name_part limit)

/-- Route `GET /diff`. -/
def diffRoute (tzOffset : String → Int) (mdb : MemDataBase) (name_1 name_2 : String) :
    Option (Except ApiError GeoInfoCompare) :=
  match Service.get_diff_info tzOffset name_1 name_2 mdb with
  | none => none
  | some none => some (.error (.notFound "one of names not found"))
  | some (some res) => some (.ok res)

/-! Concrete example data used by counterexamples and witnesses.  `gA` carries a
numerically larger but lexicographically smaller latitude than `gB`, a smaller
population, and shares the alternate name "X" with `gB`. -/

/-- Example record: id 1, latitude "10", population "1", alternate names A, A2, X. -/
def gA : GeoInfo :=
  ⟨"1", "A", "A", "A,A2,X", "10", "0", "P", "", "", "", "", "", "", "", "1", "", "", "T", ""⟩

/-- Example record: id 2, latitude "9", population "2", alternate names B, X. -/
def gB : GeoInfo :=
  ⟨"2", "B", "B", "B,X", "9", "0", "P", "", "", "", "", "", "", "", "2", "", "", "T", ""⟩

/-- Example primary index holding `gA` and `gB`. -/
def cexDb : List (Int × GeoInfo) := [(1, gA), (2, gB)]

/-- The name index `init_hased_names` builds from `cexDb` (checked by `decide` in the
theorems below): the ascending-population sort is `[gA, gB]` and each record is
prepended to its names' lists, so "X" maps to `[gB, gA]`. -/
def cexHn : List (String × List GeoInfo) :=
  [("A", [gA]), ("A2", [gA]), ("X", [gB, gA]), ("B", [gB])]

/-- Example `MemDataBase` over `cexDb`/`cexHn`. -/
def mdbC : MemDataBase := ⟨cexDb, cexHn⟩

/-- The records of `recs` that carry the alternate name `nm`, in order, with one copy
per occurrence of `nm` in the record's comma-separated alternate-name field. -/
def occList (nm : String) (recs : List GeoInfo) : List GeoInfo :=
  recs.flatMap (fun gi => List.replicate ((gi.alternatenames.splitOn ",").count nm) gi)

/-! Lemmas about the Python-dict model. -/

theorem dictGet_cons [DecidableEq κ] (p : κ × ν) (d : List (κ × ν)) (k : κ) :
    dictGet (p :: d) k = if p.1 = k then some p.2 else dictGet d k := by
  by_cases h : p.1 = k <;> simp [dictGet, List.find?_cons, h]

theorem dictGet_map_keyfix [DecidableEq κ] (d : List (κ × ν)) {k k' : κ} (v : ν)
    (hne : k' ≠ k) :
    dictGet (d.map (fun q => if q.1 = k then (k, v) else q)) k' = dictGet d k' := by
  induction d with
  | nil => rfl
  | cons p rest ih =>
    by_cases hpk : p.1 = k
    · simp only [List.map_cons, if_pos hpk, dictGet_cons]
      rw [if_neg (fun h => hne h.symm), if_neg (fun h => hne (hpk ▸ h).symm)]
      exact ih
    · simp only [List.map_cons, if_neg hpk, dictGet_cons]
      by_cases hpk' : p.1 = k'
      · rw [if_pos hpk', if_pos hpk']
      · rw [if_neg hpk', if_neg hpk']
        exact ih

theorem dictGet_map_keyfix_self [DecidableEq κ] (d : List (κ × ν)) {k : κ} (v : ν)
    (hany : (d.any fun q => decide (q.1 = k)) = true) :
    dictGet (d.map (fun q => if q.1 = k then (k, v) else q)) k = some v := by
  induction d with
  | nil => simp at hany
  | cons p rest ih =>
    by_cases hpk : p.1 = k
    · simp [List.map_cons, if_pos hpk, dictGet_cons]
    · rw [List.any_cons, Bool.or_eq_true_iff] at hany
      have hrest : (rest.any fun q => decide (q.1 = k)) = true := by
        rcases hany with h | h
        · exact absurd (of_decide_eq_true h) hpk
        · exact h
      simp only [List.map_cons, if_neg hpk, dictGet_cons, if_neg hpk]
      exact ih hrest

theorem dictGet_append_single [DecidableEq κ] (d : List (κ × ν)) {k k' : κ} (v : ν)
    (hne : k' ≠ k) :
    dictGet (d ++ [(k, v)]) k' = dictGet d k' := by
  induction d with
  | nil => simp [dictGet, Ne.symm hne]
  | cons p rest ih =>
    simp only [List.cons_append, dictGet_cons]
    by_cases hpk' : p.1 = k'
    · rw [if_pos hpk', if_pos hpk']
    · rw [if_neg hpk', if_neg hpk']
      exact ih

theorem dictGet_append_single_self [DecidableEq κ] (d : List (κ × ν)) {k : κ} (v : ν) :
    (d.any fun q => decide (q.1 = k)) = false →
    dictGet (d ++ [(k, v)]) k = some v := by
  induction d with
  | nil => intro _; simp [dictGet]
  | cons p rest ih =>
    intro hany
    rw [List.any_cons, Bool.or_eq_false_iff] at hany
    have h1 : ¬ p.1 = k := by simpa using hany.1
    simp only [List.cons_append, dictGet_cons, if_neg h1]
    exact ih hany.2

theorem dictGet_dictInsert_self [DecidableEq κ] (d : List (κ × ν)) (k : κ) (v : ν) :
    dictGet (dictInsert d k v) k = some v := by
  unfold dictInsert
  by_cases hany : (d.any fun q => decide (q.1 = k)) = true
  · rw [if_pos hany]
    exact dictGet_map_keyfix_self d v hany
  · rw [if_neg hany]
    exact dictGet_append_single_self d v (Bool.eq_false_iff.mpr hany)

theorem dictGet_dictInsert_ne [DecidableEq κ] (d : List (κ × ν)) {k k' : κ} (v : ν)
    (hne : k' ≠ k) :
    dictGet (dictInsert d k v) k' = dictGet d k' := by
  unfold dictInsert
  by_cases hany : (d.any fun q => decide (q.1 = k)) = true
  · rw [if_pos hany]
    exact dictGet_map_keyfix d v hne
  · rw [if_neg hany]
    exact dictGet_append_single d v hne

theorem dictGet_addName_self (hn : List (String × List GeoInfo)) (gi : GeoInfo) (nm : String) :
    dictGet (addName hn gi nm) nm = some (gi :: (dictGet hn nm).getD []) :=
  dictGet_dictInsert_self hn nm _

theorem dictGet_addName_ne (hn : List (String × List GeoInfo)) (gi : GeoInfo)
    {nm nm' : String} (h : nm' ≠ nm) :
    dictGet (addName hn gi nm) nm' = dictGet hn nm' :=
  dictGet_dictInsert_ne hn _ h

theorem foldl_addName_get (gi : GeoInfo) (names : List String)
    (hn : List (String × List GeoInfo)) (nm : String) :
    dictGet (names.foldl (fun h nm => addName h gi nm) hn) nm =
      if names.count nm = 0 then dictGet hn nm
      else some (List.replicate (names.count nm) gi ++ (dictGet hn nm).getD []) := by
  induction names generalizing hn with
  | nil => simp
  | cons n rest ih =>
    rw [List.foldl_cons, ih (addName hn gi n)]
    by_cases hnm : n = nm
    · subst hnm
      rw [dictGet_addName_self]
      by_cases hc : rest.count n = 0
      · simp [hc, List.count_cons]
      · simp [hc, List.count_cons, List.replicate_succ', List.append_assoc]
    · rw [dictGet_addName_ne hn gi (fun h => hnm h.symm)]
      simp [List.count_cons, hnm]

theorem occList_cons (nm : String) (r : GeoInfo) (rest : List GeoInfo) :
    occList nm (r :: rest) =
      List.replicate ((r.alternatenames.splitOn ",").count nm) r ++ occList nm rest := by
  simp [occList]

theorem foldl_addRecord_get (recs : List GeoInfo) (hn : List (String × List GeoInfo))
    (nm : String) :
    dictGet (recs.foldl addRecord hn) nm =
      if occList nm recs = [] then dictGet hn nm
      else some ((occList nm recs).reverse ++ (dictGet hn nm).getD []) := by
  induction recs generalizing hn with
  | nil => simp [occList]
  | cons r rest ih =>
    rw [List.foldl_cons, ih (addRecord hn r), occList_cons]
    have haddr := foldl_addName_get r (r.alternatenames.splitOn ",") hn nm
    rw [addRecord] at *
    by_cases hkz : (r.alternatenames.splitOn ",").count nm = 0
    · rw [if_pos hkz] at haddr
      simp [haddr, hkz]
    · rw [if_neg hkz] at haddr
      by_cases hocc : occList nm rest = []
      · simp [haddr, hkz, hocc, List.reverse_replicate,
          List.replicate_eq_nil_iff]
      · simp [haddr, hkz, hocc, List.reverse_append, List.reverse_replicate,
          List.append_assoc, List.replicate_eq_nil_iff]

theorem buildNames_get (recs : List GeoInfo) (nm : String) :
    dictGet (buildNames recs) nm =
      if occList nm recs = [] then none
      else some ((occList nm recs).reverse) := by
  rw [buildNames, foldl_addRecord_get]
  by_cases hocc : occList nm recs = [] <;> simp [hocc, dictGet]

theorem pairwise_sortedRecords (db : List (Int × GeoInfo)) :
    (sortedRecords db).Pairwise (fun a b => popVal a ≤ popVal b) := by
  have h := @List.sorted_mergeSort GeoInfo (fun a b : GeoInfo => decide (popVal a ≤ popVal b))
    (fun a b c h1 h2 => by
      rw [decide_eq_true_eq] at *
      exact le_trans h1 h2)
    (fun a b => by simpa using Int.le_total (popVal a) (popVal b))
    (dictValues db)
  exact h.imp (fun hab => of_decide_eq_true hab)

theorem mem_occList {x : GeoInfo} {nm : String} {recs : List GeoInfo}
    (h : x ∈ occList nm recs) : x ∈ recs := by
  rw [occList, List.mem_flatMap] at h
  obtain ⟨gi, hgi, hx⟩ := h
  rwa [List.eq_of_mem_replicate hx]

theorem pairwise_occList {R : GeoInfo → GeoInfo → Prop} (nm : String) (recs : List GeoInfo)
    (hrefl : ∀ a, R a a) (hp : recs.Pairwise R) :
    (occList nm recs).Pairwise R := by
  induction recs with
  | nil => simp [occList]
  | cons r rest ih =>
    rw [occList_cons, List.pairwise_append]
    rw [List.pairwise_cons] at hp
    refine ⟨?_, ih hp.2, ?_⟩
    · rw [List.pairwise_replicate]
      right
      exact hrefl r
    · intro a ha b hb
      rw [List.eq_of_mem_replicate ha]
      exact hp.1 b (mem_occList hb)

theorem nameIndex_list_eq (db : List (Int × GeoInfo)) (hn : List (String × List GeoInfo))
    (nm : String) (l : List GeoInfo)
    (h1 : init_hased_names db = some hn) (h2 : dictGet hn nm = some l) :
    l = (occList nm (sortedRecords db)).reverse ∧ occList nm (sortedRecords db) ≠ [] := by
  unfold init_hased_names at h1
  by_cases hc : ((dictValues db).all fun gi => gi.population.toInt?.isSome) = true
  · rw [if_pos hc] at h1
    injection h1 with h1
    subst h1
    rw [buildNames_get] at h2
    by_cases hocc : occList nm (sortedRecords db) = []
    · rw [if_pos hocc] at h2
      cases h2
    · rw [if_neg hocc] at h2
      injection h2 with h2
      exact ⟨h2.symm, hocc⟩
  · rw [if_neg hc] at h1
    cases h1

theorem head_max_of_pairwise_ge {l : List GeoInfo}
    (hp : l.Pairwise (fun a b => popVal b ≤ popVal a)) (h : l ≠ []) :
    ∀ x ∈ l, popVal x ≤ popVal (l.head h) := by
  cases l with
  | nil => cases h rfl
  | cons a t =>
    rw [List.pairwise_cons] at hp
    intro x hx
    rcases List.mem_cons.mp hx with rfl | hx
    · exact le_refl _
    · exact hp.1 x hx

/-- C5: the spec says the minutes part of the formatted difference is `|d| mod 60`
(so `d = -45` should format as "-00:45"), but the code computes
`int(abs(delta_minutes % 60))` with Python's floored modulo applied before `abs`,
so `d = -45` yields minutes part `(-45) mod 60 = 15` and the string "-00:15". -/
theorem timezone_diff_neg_minutes_bug :
    Service.timezone_diff 0 45 = (-45, "-00:15") ∧
    (-45 : Int).natAbs % 60 = 45 ∧
    ("-00:15" : String) ≠ "-00:45" := by
  refine ⟨by decide, by decide, by decide⟩

unseal String.substrEq.loop in
/-- C1: the validation guard of the paginate and prefix-search routes never fires on
an out-of-range `limit`.  The Python condition `0 > limit > 1000` is the chained
comparison `(0 > limit) and (limit > 1000)`, which is unsatisfiable, so `limit = 2000`
and `limit = 0` are both accepted and the handlers return records (or an empty page)
instead of a bad-request error. -/
theorem limit_validation_never_fires :
    pagination mdbC 0 2000 = .ok [gA, gB] ∧
    pagination mdbC 0 0 = .ok [] ∧
    helpRoute mdbC "A" 2000 = .ok ["A", "A2"] ∧
    helpRoute mdbC "A" 0 = .ok [] ∧
    (∀ limit : Int, ¬ (0 > limit ∧ limit > 1000)) := by
  refine ⟨by rfl, by rfl, by rfl, by rfl, ?_⟩
  intro limit h
  omega

set_option maxRecDepth 20000 in
unseal String.splitOnAux String.foldlAux String.anyAux List.merge List.mergeSort in
/-- C2 counterexample: after construction the list stored for name "X" is
`[gB, gA]` with populations `[2, 1]` — strictly descending, not ascending, and
its last entry `gA` is not the most populous record for "X". -/
theorem nameIndex_not_ascending :
    init_hased_names cexDb = some cexHn ∧
    dictGet cexHn "X" = some [gB, gA] ∧
    ¬ ([gB, gA] : List GeoInfo).Pairwise (fun a b => popVal a ≤ popVal b) ∧
    ([gB, gA] : List GeoInfo).getLast? = some gA ∧
    popVal gA < popVal gB := by
  refine ⟨by decide, by decide, ?_, by decide, by decide⟩
  intro hp
  rw [List.pairwise_cons] at hp
  have := hp.1 gA (by decide)
  revert this
  decide

set_option maxRecDepth 20000 in
unseal String.foldlAux String.anyAux String.ltb in
/-- C3: latitudes are stored as raw strings and `north` is decided by Python string
comparison `gi_1.latitude >= gi_2.latitude`.  Here the record for "A" has latitude
"10" (numerically 10) and the record for "B" has latitude "9" (numerically 9):
numerically 10 > 9, so the claim requires `north = "A"`, but lexicographically
"10" < "9" and the code returns `north = "B"`. -/
theorem north_uses_string_comparison :
    gA.latitude.toInt? = some 10 ∧ gB.latitude.toInt? = some 9 ∧
    mdbC.get_by_name "A" = some [gA] ∧ mdbC.get_by_name "B" = some [gB] ∧
    Service.get_diff_info (fun _ => 0) "A" "B" mdbC =
      some (some ⟨"B", true, "+00:00", gA, gB⟩) := by
  refine ⟨by decide, by decide, by decide, by decide, by decide⟩

unseal String.ltb in
/-- C6 counterexample: "A" and "A2" are two different names resolving to the same
record `gA`, so the resolved latitudes are equal; the tie is broken in favour of the
first argument, so `compare("A","A2").north = "A"` while `compare("A2","A").north = "A2"`:
the `north` field is not symmetric in argument order at latitude ties. -/
theorem north_not_symmetric_at_ties :
    Service.get_diff_info (fun _ => 0) "A" "A2" mdbC =
      some (some ⟨"A", true, "+00:00", gA, gA⟩) ∧
    Service.get_diff_info (fun _ => 0) "A2" "A" mdbC =
      some (some ⟨"A2", true, "+00:00", gA, gA⟩) ∧
    ("A" : String) ≠ "A2" := by
  refine ⟨by decide, by decide, by decide⟩

/-- C2 amended: for every name key present in the name index after construction, the
associated sequence is ordered descending by population (each record is prepended to
its names' lists while iterating over the ascending-population sort), so the first
entry — not the last — is the most populous record sharing that name. -/
theorem nameIndex_descending (db : List (Int × GeoInfo)) (hn : List (String × List GeoInfo))
    (nm : String) (l : List GeoInfo)
    (h1 : init_hased_names db = some hn) (h2 : dictGet hn nm = some l) :
    l.Pairwise (fun a b => popVal b ≤ popVal a) ∧
    ∃ h : l ≠ [], ∀ x ∈ l, popVal x ≤ popVal (l.head h) := by
  obtain ⟨hl, hocc⟩ := nameIndex_list_eq db hn nm l h1 h2
  have hasc : (occList nm (sortedRecords db)).Pairwise (fun a b => popVal a ≤ popVal b) :=
    pairwise_occList nm (sortedRecords db) (fun a => le_refl _) (pairwise_sortedRecords db)
  subst hl
  have hdesc : (occList nm (sortedRecords db)).reverse.Pairwise
      (fun a b => popVal b ≤ popVal a) := by
    rw [List.pairwise_reverse]
    exact hasc
  have hne : (occList nm (sortedRecords db)).reverse ≠ [] := by
    simpa using hocc
  exact ⟨hdesc, hne, head_max_of_pairwise_ge hdesc hne⟩

/-- C4: for any name present in the name index, the list returned by `get_by_name`
is non-empty, its first element (the record the compare operation uses, `gi[0]`) has
the maximum population among all records sharing that name, and that first element is
exactly the last record appended for that name while iterating over the stable
ascending-population sort — i.e. ties go to the record appearing latest in the sort. -/
theorem getByName_most_populous (mdb : MemDataBase) (nm : String) (l : List GeoInfo)
    (h1 : init_hased_names mdb.hashed_db = some mdb.hashed_db_names)
    (h2 : mdb.get_by_name nm = some l) :
    ∃ h : l ≠ [], (∀ gi ∈ l, popVal gi ≤ popVal (l.head h)) ∧
      l.head? = (occList nm (sortedRecords mdb.hashed_db)).getLast? := by
  obtain ⟨hl, hocc⟩ := nameIndex_list_eq mdb.hashed_db mdb.hashed_db_names nm l h1 h2
  have hasc : (occList nm (sortedRecords mdb.hashed_db)).Pairwise
      (fun a b => popVal a ≤ popVal b) :=
    pairwise_occList nm (sortedRecords mdb.hashed_db) (fun a => le_refl _)
      (pairwise_sortedRecords mdb.hashed_db)
  subst hl
  have hdesc : (occList nm (sortedRecords mdb.hashed_db)).reverse.Pairwise
      (fun a b => popVal b ≤ popVal a) := by
    rw [List.pairwise_reverse]
    exact hasc
  have hne : (occList nm (sortedRecords mdb.hashed_db)).reverse ≠ [] := by
    simpa using hocc
  exact ⟨hne, head_max_of_pairwise_ge hdesc hne, List.head?_reverse _⟩

/-- C9: when the name index was built by `init_hased_names` from the primary index,
every stored sequence is non-empty, and therefore `get_diff_info` never hits the
`IndexError` branch (`gi_1[0]` / `gi_2[0]` out of bounds), for any pair of names and
any offset environment: the only outcomes are a comparison result or the not-found
`None`. -/
theorem compare_index_access_safe (mdb : MemDataBase)
    (h1 : init_hased_names mdb.hashed_db = some mdb.hashed_db_names) :
    (∀ nm l, mdb.get_by_name nm = some l → l ≠ []) ∧
    (∀ tzOffset n1 n2, Service.get_diff_info tzOffset n1 n2 mdb ≠ none) := by
  have hne : ∀ nm l, mdb.get_by_name nm = some l → l ≠ [] := by
    intro nm l h2
    obtain ⟨hl, hocc⟩ := nameIndex_list_eq mdb.hashed_db mdb.hashed_db_names nm l h1 h2
    subst hl
    simpa using hocc
  refine ⟨hne, ?_⟩
  intro tz n1 n2
  unfold Service.get_diff_info
  cases hga : mdb.get_by_name n1 with
  | none => simp
  | some l1 =>
    cases hgb : mdb.get_by_name n2 with
    | none => simp
    | some l2 =>
      have h1ne := hne n1 l1 hga
      have h2ne := hne n2 l2 hgb
      cases l1 with
      | nil => exact absurd rfl h1ne
      | cons a t =>
        cases l2 with
        | nil => exact absurd rfl h2ne
        | cons b s => simp

/-- Shape of `Service.get_diff_info` when both names resolve and both lists have a
first element. -/
theorem get_diff_info_some (tzOffset : String → Int) (mdb : MemDataBase)
    (n1 n2 : String) (l1 l2 : List GeoInfo) (g1 g2 : GeoInfo)
    (hga : mdb.get_by_name n1 = some l1) (hgb : mdb.get_by_name n2 = some l2)
    (hl1 : l1[0]? = some g1) (hl2 : l2[0]? = some g2) :
    Service.get_diff_info tzOffset n1 n2 mdb =
      some (some ⟨if g2.latitude ≤ g1.latitude then n1 else n2,
        decide ((Service.timezone_diff (tzOffset g1.timezone) (tzOffset g2.timezone)).1 = 0),
        (Service.timezone_diff (tzOffset g1.timezone) (tzOffset g2.timezone)).2, g1, g2⟩) := by
  unfold Service.get_diff_info
  rw [hga, hgb]
  simp [hl1, hl2]

/-- Shape of `Service.get_diff_info` when the first name does not resolve. -/
theorem get_diff_info_none_left (tzOffset : String → Int) (mdb : MemDataBase)
    (n1 n2 : String) (h : mdb.get_by_name n1 = none) :
    Service.get_diff_info tzOffset n1 n2 mdb = some none := by
  unfold Service.get_diff_info
  rw [h]

/-- Shape of `Service.get_diff_info` when the second name does not resolve. -/
theorem get_diff_info_none_right (tzOffset : String → Int) (mdb : MemDataBase)
    (n1 n2 : String) (h : mdb.get_by_name n2 = none) :
    Service.get_diff_info tzOffset n1 n2 mdb = some none := by
  unfold Service.get_diff_info
  cases hx : mdb.get_by_name n1 <;> simp [h]

/-- Shape of `Service.get_diff_info` when the first resolved list is empty
(the Python `gi_1[0]` raises `IndexError`). -/
theorem get_diff_info_crash_left (tzOffset : String → Int) (mdb : MemDataBase)
    (n1 n2 : String) (l1 l2 : List GeoInfo)
    (hga : mdb.get_by_name n1 = some l1) (hgb : mdb.get_by_name n2 = some l2)
    (hl1 : l1[0]? = none) :
    Service.get_diff_info tzOffset n1 n2 mdb = none := by
  unfold Service.get_diff_info
  rw [hga, hgb]
  simp [hl1]

/-- Shape of `Service.get_diff_info` when the second resolved list is empty
(the Python `gi_2[0]` raises `IndexError`). -/
theorem get_diff_info_crash_right (tzOffset : String → Int) (mdb : MemDataBase)
    (n1 n2 : String) (l1 l2 : List GeoInfo) (g1 : GeoInfo)
    (hga : mdb.get_by_name n1 = some l1) (hgb : mdb.get_by_name n2 = some l2)
    (hl1 : l1[0]? = some g1) (hl2 : l2[0]? = none) :
    Service.get_diff_info tzOffset n1 n2 mdb = none := by
  unfold Service.get_diff_info
  rw [hga, hgb]
  simp [hl1, hl2]

/-- C6 amended: the `north` field of the comparison is symmetric in argument order
whenever the two resolved records\' latitude fields differ; only at exact latitude
ties (where the code favours its first argument) can the two orders disagree. -/
theorem north_symmetric_of_latitude_ne (tzOffset : String → Int) (mdb : MemDataBase)
    (a b : String) (c1 c2 : GeoInfoCompare)
    (h1 : Service.get_diff_info tzOffset a b mdb = some (some c1))
    (h2 : Service.get_diff_info tzOffset b a mdb = some (some c2))
    (hne : c1.name_1.latitude ≠ c1.name_2.latitude) :
    c1.north = c2.north := by
  cases hga : mdb.get_by_name a with
  | none =>
    rw [get_diff_info_none_left tzOffset mdb a b hga] at h1
    simp at h1
  | some l1 =>
    cases hgb : mdb.get_by_name b with
    | none =>
      rw [get_diff_info_none_right tzOffset mdb a b hgb] at h1
      simp at h1
    | some l2 =>
      cases hl1 : l1[0]? with
      | none =>
        rw [get_diff_info_crash_left tzOffset mdb a b l1 l2 hga hgb hl1] at h1
        simp at h1
      | some g1 =>
        cases hl2 : l2[0]? with
        | none =>
          rw [get_diff_info_crash_right tzOffset mdb a b l1 l2 g1 hga hgb hl1 hl2] at h1
          simp at h1
        | some g2 =>
          rw [get_diff_info_some tzOffset mdb a b l1 l2 g1 g2 hga hgb hl1 hl2] at h1
          rw [get_diff_info_some tzOffset mdb b a l2 l1 g2 g1 hgb hga hl2 hl1] at h2
          simp only [Option.some.injEq] at h1 h2
          have hc1 : c1.name_1 = g1 := by rw [← h1]
          have hc2 : c1.name_2 = g2 := by rw [← h1]
          rw [hc1, hc2] at hne
          have hn1 : c1.north = if g2.latitude ≤ g1.latitude then a else b := by
            rw [← h1]
          have hn2 : c2.north = if g1.latitude ≤ g2.latitude then b else a := by
            rw [← h2]
          rcases le_or_lt g2.latitude g1.latitude with hle | hlt
          · rw [hn1, if_pos hle, hn2, if_neg (fun hle2 => hne (le_antisymm hle2 hle))]
          · rw [hn1, if_neg (not_le.mpr hlt), hn2, if_pos (le_of_lt hlt)]

theorem pySlice_nonneg (l : List α) (a b : Int) (ha : 0 ≤ a) (hb : 0 ≤ b) :
    pySlice l a (a + b) = (l.drop a.toNat).take b.toNat := by
  unfold pySlice pyIdx
  rw [if_neg (not_lt.mpr ha), if_neg (by omega : ¬ a + b < 0)]
  dsimp only
  rw [Int.toNat_add ha hb]
  rcases le_or_lt a.toNat l.length with hlen | hlen
  · rw [min_eq_left hlen]
    rcases le_or_lt (a.toNat + b.toNat) l.length with hble | hble
    · rw [min_eq_left hble, Nat.add_sub_cancel_left]
    · rw [min_eq_right (le_of_lt hble)]
      rw [List.take_of_length_le (by rw [List.length_drop]),
        List.take_of_length_le (by rw [List.length_drop]; omega)]
  · rw [min_eq_right (le_of_lt hlen), min_eq_right (by omega : l.length ≤ a.toNat + b.toNat)]
    rw [Nat.sub_self, List.take_zero, List.drop_eq_nil_of_le (le_of_lt hlen), List.take_nil]

theorem get_list_drop_take (mdb : MemDataBase) (skip limit : Int)
    (h1 : 0 ≤ skip) (h2 : 0 ≤ limit) :
    mdb.get_list skip limit = ((dictValues mdb.hashed_db).drop skip.toNat).take limit.toNat :=
  pySlice_nonneg (dictValues mdb.hashed_db) skip limit h1 h2

/-- C7: for `skip ≥ 0` and `0 < limit ≤ 1000`, `get_list` returns exactly
`min limit (max 0 (totalRecords - skip))` records (natural subtraction is the
truncated difference), and a `skip` beyond the index size yields the empty list —
`get_list` is total, no error is signalled. -/
theorem getPage_length (mdb : MemDataBase) (skip limit : Int)
    (hs : 0 ≤ skip) (hl : 0 < limit) (hl2 : limit ≤ 1000) :
    (mdb.get_list skip limit).length =
      min limit.toNat ((dictValues mdb.hashed_db).length - skip.toNat) ∧
    ((dictValues mdb.hashed_db).length ≤ skip.toNat → mdb.get_list skip limit = []) := by
  have heq := get_list_drop_take mdb skip limit hs (le_of_lt hl)
  constructor
  · rw [heq, List.length_take, List.length_drop]
  · intro hle
    rw [heq, List.drop_eq_nil_of_le hle, List.take_nil]

/-- C10: the paginate route treats its first parameter as a page number: for
`p ≥ 0` and a limit in the intended range it returns exactly
`get_list (p * limit, limit)`; the concatenation of pages `0 .. k-1` is exactly the
first `k * limit` records of the primary index's iteration order, hence a prefix of
it (consecutive pages are adjacent, non-overlapping slices). -/
theorem pagination_pages (mdb : MemDataBase) (p : Nat) (limit : Int)
    (hl : 0 < limit) (hl1000 : limit ≤ 1000) :
    pagination mdb p limit = .ok (mdb.get_list ((p : Int) * limit) limit) ∧
    (∀ k : Nat, (List.range k).flatMap (fun q => mdb.get_list ((q : Int) * limit) limit)
        = (dictValues mdb.hashed_db).take (k * limit.toNat)) ∧
    (∀ k : Nat, ∃ rest, dictValues mdb.hashed_db =
        ((List.range k).flatMap (fun q => mdb.get_list ((q : Int) * limit) limit)) ++ rest) := by
  have hpage : ∀ q : Nat, mdb.get_list ((q : Int) * limit) limit
      = ((dictValues mdb.hashed_db).drop (q * limit.toNat)).take limit.toNat := by
    intro q
    have h0 : (0 : Int) ≤ (q : Int) * limit :=
      mul_nonneg (Int.natCast_nonneg q) (le_of_lt hl)
    rw [get_list_drop_take mdb _ limit h0 (le_of_lt hl)]
    have hcast : ((q : Int) * limit).toNat = q * limit.toNat := by
      have h : ((q : Int)) * limit = ((q * limit.toNat : Nat) : Int) := by
        rw [Nat.cast_mul, Int.toNat_of_nonneg (le_of_lt hl)]
      rw [h, Int.toNat_natCast]
    rw [hcast]
  have hjoin : ∀ k : Nat, (List.range k).flatMap (fun q => mdb.get_list ((q : Int) * limit) limit)
      = (dictValues mdb.hashed_db).take (k * limit.toNat) := by
    intro k
    induction k with
    | zero => simp
    | succ k ih =>
      rw [List.range_succ, List.flatMap_append, ih]
      simp only [List.flatMap_cons, List.flatMap_nil, List.append_nil]
      rw [hpage k, Nat.succ_mul, List.take_add]
  refine ⟨?_, hjoin, ?_⟩
  · unfold pagination
    rw [if_neg (by omega : ¬ ((p : Int) < 0 ∨ (0 > limit ∧ limit > 1000)))]
  · intro k
    exact ⟨(dictValues mdb.hashed_db).drop (k * limit.toNat),
      by rw [hjoin k, List.take_append_drop]⟩

theorem init_db_step_none (db : List (Int × GeoInfo)) (line : String)
    (hbad : (line.trim.splitOn "\t").length ≠ 19) :
    init_db_step db line = none := by
  have hp : parseLine line = none := by
    unfold parseLine
    dsimp only
    rw [dif_neg hbad]
  unfold init_db_step
  rw [hp]
  rfl

theorem foldlM_init_db_step_none (lines : List String) (line : String)
    (hmem : line ∈ lines) (hbad : (line.trim.splitOn "\t").length ≠ 19) :
    ∀ acc, List.foldlM init_db_step acc lines = none := by
  induction lines with
  | nil => cases hmem
  | cons l rest ih =>
    intro acc
    rw [List.foldlM_cons]
    rcases List.mem_cons.mp hmem with heq | hmem2
    · rw [init_db_step_none acc l (heq ▸ hbad)]
      rfl
    · cases hstep : init_db_step acc l with
      | none => rfl
      | some acc2 => exact ih hmem2 acc2

/-- C8: if any dataset line splits into a number of tab-separated fields other than
19, `init_db` fails as a whole (returns `none`, the model of the Python `TypeError`
from `GeoInfo(*fields)`) and the `MemDataBase` constructor produces no index at all —
no record is silently skipped and no partially built index is observable. -/
theorem malformed_line_fails_load (lines : List String) (line : String)
    (hmem : line ∈ lines) (hbad : (line.trim.splitOn "\t").length ≠ 19) :
    init_db lines = none ∧ MemDataBase.make lines = none := by
  have h : init_db lines = none := foldlM_init_db_step_none lines line hmem hbad []
  refine ⟨h, ?_⟩
  unfold MemDataBase.make
  rw [h]
  rfl

set_option maxRecDepth 20000 in
unseal String.splitOnAux String.foldlAux String.anyAux List.merge List.mergeSort in
/-- Witness for the amended C2 theorem at the concrete index `cexDb`/`cexHn` and
name "X". -/
theorem nameIndex_descending_witness :
    init_hased_names cexDb = some cexHn ∧
    (([gB, gA] : List GeoInfo).Pairwise (fun a b => popVal b ≤ popVal a) ∧
      ∃ h : ([gB, gA] : List GeoInfo) ≠ [],
        ∀ x ∈ ([gB, gA] : List GeoInfo), popVal x ≤ popVal (([gB, gA] : List GeoInfo).head h)) :=
  ⟨by decide, nameIndex_descending cexDb cexHn "X" [gB, gA] (by decide) (by decide)⟩

set_option maxRecDepth 20000 in
unseal String.splitOnAux String.foldlAux String.anyAux List.merge List.mergeSort in
/-- Witness for the C4 theorem at the concrete index `mdbC` and name "X". -/
theorem getByName_most_populous_witness :
    mdbC.get_by_name "X" = some [gB, gA] ∧
    ∃ h : ([gB, gA] : List GeoInfo) ≠ [],
      (∀ gi ∈ ([gB, gA] : List GeoInfo), popVal gi ≤ popVal (([gB, gA] : List GeoInfo).head h)) ∧
      ([gB, gA] : List GeoInfo).head? = (occList "X" (sortedRecords mdbC.hashed_db)).getLast? :=
  ⟨by decide, getByName_most_populous mdbC "X" [gB, gA] (by decide) (by decide)⟩

set_option maxRecDepth 20000 in
unseal String.splitOnAux String.foldlAux String.anyAux List.merge List.mergeSort in
/-- Witness for the C9 theorem at the concrete index `mdbC`. -/
theorem compare_index_access_safe_witness :
    (∀ nm l, mdbC.get_by_name nm = some l → l ≠ []) ∧
    (∀ tzOffset n1 n2, Service.get_diff_info tzOffset n1 n2 mdbC ≠ none) :=
  compare_index_access_safe mdbC (by decide)

unseal String.ltb in
/-- Witness for the amended C6 theorem: "A" and "B" resolve to records with distinct
latitude fields ("10" and "9"), and both argument orders agree on `north = "B"`. -/
theorem north_symmetric_of_latitude_ne_witness :
    gA.latitude ≠ gB.latitude ∧
    (⟨"B", true, "+00:00", gA, gB⟩ : GeoInfoCompare).north =
      (⟨"B", true, "+00:00", gB, gA⟩ : GeoInfoCompare).north :=
  ⟨by decide,
    north_symmetric_of_latitude_ne (fun _ => 0) mdbC "A" "B"
      ⟨"B", true, "+00:00", gA, gB⟩ ⟨"B", true, "+00:00", gB, gA⟩
      (by decide) (by decide) (by decide)⟩

/-- Witness for the C7 theorem at `mdbC`, `skip = 0`, `limit = 10`. -/
theorem getPage_length_witness :
    (mdbC.get_list 0 10).length =
      min (10 : Int).toNat ((dictValues mdbC.hashed_db).length - (0 : Int).toNat) ∧
    ((dictValues mdbC.hashed_db).length ≤ (0 : Int).toNat → mdbC.get_list 0 10 = []) :=
  getPage_length mdbC 0 10 (by decide) (by decide) (by decide)

/-- Witness for the C10 theorem at `mdbC`, page 1, `limit = 10`. -/
theorem pagination_pages_witness :
    pagination mdbC 1 10 = .ok (mdbC.get_list ((1 : Nat) * (10 : Int)) 10) ∧
    (∀ k : Nat, (List.range k).flatMap (fun q => mdbC.get_list ((q : Int) * 10) 10)
        = (dictValues mdbC.hashed_db).take (k * (10 : Int).toNat)) ∧
    (∀ k : Nat, ∃ rest, dictValues mdbC.hashed_db =
        ((List.range k).flatMap (fun q => mdbC.get_list ((q : Int) * 10) 10)) ++ rest) :=
  pagination_pages mdbC 1 10 (by decide) (by decide)

unseal String.splitOnAux Substring.takeWhileAux Substring.takeRightWhileAux in
/-- Witness for the C8 theorem: the two-field line "a\tb" makes the whole load fail. -/
theorem malformed_line_fails_load_witness :
    ("a\tb".trim.splitOn "\t").length ≠ 19 ∧
    init_db ["a\tb"] = none ∧ MemDataBase.make ["a\tb"] = none :=
  ⟨by decide, malformed_line_fails_load ["a\tb"] "a\tb" (by decide) (by decide)⟩
